import Mathlib

/-!
Verification of `src/library/cmsis-dap/usb_descriptors.c` (ez-pico-framework).

Shallow embedding conventions:
- Byte buffers (`char`/`uint8_t` arrays) and the 16-bit scratch descriptor
  buffer `_desc_str` are modelled as `List Nat`; machine-width truncation is
  written explicitly with `% 256` (uint8_t) where the source narrows.
- `List.set` models an in-place store (out-of-range stores are no-ops, so
  in-bounds facts are stated explicitly where they matter).
- The string table `string_desc_arr` aliases the mutable `unique_id` buffer
  in its serial slot, so it is embedded as a function of the serial bytes;
  table entries model the bytes of a C string up to (not including) its NUL
  terminator.
- The externally configured constant `CFG_TUD_HID_EP_BUFSIZE` and the
  external `DAP_ProcessCommand` are parameters (`bufcap`, `process`) of the
  set-report relay.
-/

namespace EzPico

/-- Sequential store of the bytes `data` into buffer `st` starting at
position `pos` (one `List.set` per byte, positions increasing). -/
def writeSeq : List Nat → Nat → List Nat → List Nat
  | st, _, [] => st
  | st, pos, b :: bs => writeSeq (st.set pos b) (pos + 1) bs

/-! ## Unique ID Deriver (`dap_main`, usb_descriptors.c lines 189-196)

The source loop is
  `for (i = 0; i < 8; i++) { snprintf(p, 3, "%X", (int)pico.id[i]); p += 2; }`
over `char unique_id[17] = "0000000000000000"`.  `"%X"` prints the byte in
uppercase hex WITHOUT zero padding (one digit for values below 16), and
`snprintf` always appends a NUL terminator. -/

/-- One uppercase hex digit, as its ASCII code: 0-9 ↦ 48..57, 10-15 ↦ 65..70. -/
def hexDigit (n : Nat) : Nat := if n < 10 then 48 + n else 55 + n

/-- The characters printed by `"%X"` for a byte value: no leading zero,
so a single digit when the value is below 16. -/
def byteHexX (b : Nat) : List Nat :=
  if b < 16 then [hexDigit b] else [hexDigit (b / 16), hexDigit (b % 16)]

/-- `snprintf(buf + pos, 3, "%X", b)` for a byte `b`: writes the hex digits
(at most two, so never truncated by the size bound 3) followed by a NUL. -/
def snprintfHexAt (buf : List Nat) (pos : Nat) (b : Nat) : List Nat :=
  writeSeq buf pos (byteHexX (b % 256) ++ [0])

/-- `char unique_id[17] = "0000000000000000"`: sixteen ASCII `0`s and a NUL. -/
def uniqueIdInit : List Nat := List.replicate 16 48 ++ [0]

/-- The serial-derivation loop of `dap_main`: one `snprintf` per hardware-ID
byte, the write position advancing by 2 (`p += 2`) each iteration. -/
def deriveSerialAux : Nat → List Nat → List Nat → List Nat
  | _, buf, [] => buf
  | pos, buf, b :: bs => deriveSerialAux (pos + 2) (snprintfHexAt buf pos b) bs

/-- Contents of the `unique_id` buffer after `dap_main` has processed the
8 hardware-ID bytes `hw`. -/
def deriveSerial (hw : List Nat) : List Nat :=
  deriveSerialAux 0 uniqueIdInit hw

/-- The C string held in a byte buffer: the bytes before the first NUL
(this is what `strlen`-based consumers such as the string-descriptor
callback see). -/
def serialCString (buf : List Nat) : List Nat := buf.takeWhile (· ≠ 0)

/-- Byte values of a Lean string literal (ASCII contents). -/
def strBytes (s : String) : List Nat := s.data.map Char.toNat

/-! ## String Descriptor Synthesizer (`tud_descriptor_string_cb`, lines 115-152) -/

/-- `TUSB_DESC_STRING` (USB string-descriptor type). -/
def TUSB_DESC_STRING : Nat := 3

/-- The string table `string_desc_arr`, as a function of the current serial
C string (slot `STRID_SERIAL` aliases the mutable `unique_id` buffer).
Slot 0 is the raw 2-byte language-ID pair 0x09, 0x04. -/
def string_desc_arr (serial : List Nat) : List (List Nat) :=
  [[0x09, 0x04], strBytes "CMSIS-DAP", strBytes "pico-debug", serial]

/-- The `(position, value)` stores performed on successive positions by the
UTF-16 copy loop `for (i = 0; i < chr_count; i++) _desc_str[1+i] = str[i];`. -/
def strWrites : Nat → List Nat → List (Nat × Nat)
  | _, [] => []
  | pos, b :: bs => (pos, b) :: strWrites (pos + 1) bs

/-- The ordered list of 16-bit-element stores `tud_descriptor_string_cb`
performs on `_desc_str` for a given table and index, or `none` when the
callback returns NULL.  Mirrors the source:
- `index == 0`: `memcpy(&_desc_str[1], string_desc_arr[0], 2)` assembles the
  two bytes little-endian into element 1, and `chr_count = 1`;
- otherwise, out-of-range index returns NULL; in range, `chr_count` is
  `strlen(str)` narrowed to `uint8_t` (hence `% 256`) and capped at 31, the
  copy loop fills elements `1..chr_count`;
- finally element 0 receives `(TUSB_DESC_STRING << 8) | (2*chr_count + 2)`.
The `langid` argument is accepted and ignored (`(void)langid`). -/
def descStrWrites (tbl : List (List Nat)) (index : Nat) (langid : Nat) :
    Option (List (Nat × Nat)) :=
  let _ := langid
  if index = 0 then
    let lang := tbl.getD 0 []
    some [(1, lang.getD 0 0 + 256 * lang.getD 1 0),
          (0, (TUSB_DESC_STRING <<< 8) ||| (2 * 1 + 2))]
  else
    (tbl[index]?).map (fun str =>
      let chr0 := str.length % 256
      let chr_count := if 31 < chr0 then 31 else chr0
      strWrites 1 (str.take chr_count) ++
        [(0, (TUSB_DESC_STRING <<< 8) ||| (2 * chr_count + 2))])

/-- Apply a list of `(position, value)` stores to a buffer, in order. -/
def applyWrites (st : List Nat) (ws : List (Nat × Nat)) : List Nat :=
  ws.foldl (fun s pv => s.set pv.1 pv.2) st

/-- `tud_descriptor_string_cb`: given the current string table, the current
contents `st` of the static scratch buffer `_desc_str` (32 elements), the
requested index and language ID, return the new buffer contents, or `none`
for the NULL return. -/
def tud_descriptor_string_cb (tbl : List (List Nat)) (st : List Nat)
    (index langid : Nat) : Option (List Nat) :=
  (descStrWrites tbl index langid).map (applyWrites st)

/-! ## Report Relay (`tud_hid_set_report_cb`, lines 171-177) -/

/-- `TU_MIN(a, b)`. -/
def TU_MIN (a b : Nat) : Nat := if a < b then a else b

/-- `tud_hid_set_report_cb`: `response_size = TU_MIN(CFG_TUD_HID_EP_BUFSIZE,
bufsize)`; `DAP_ProcessCommand(RxDataBuffer, TxDataBuffer)` fills the static
output buffer (modelled by `process rx`, the buffer contents after the call);
`tud_hid_report(0, TxDataBuffer, response_size)` transmits the first
`response_size` bytes of it.  Result: (transmitted bytes, transmitted
length). `bufcap` is the externally configured `CFG_TUD_HID_EP_BUFSIZE`. -/
def tud_hid_set_report_cb (bufcap : Nat) (process : List Nat → List Nat)
    (rx : List Nat) (bufsize : Nat) : List Nat × Nat :=
  let response_size := TU_MIN bufcap bufsize
  let tx := process rx
  (tx.take response_size, response_size)

/-! ## Worker loop (`dap_main`, lines 185-202) -/

/-- The observable steps of `dap_main`, in source order. -/
inductive DapEvent where
  | measureClock
  | deriveSerialId
  | dapSetup
  | tusbInit
  | tudTask
deriving DecidableEq

/-- The straight-line body of `dap_main` followed by `while (true) tud_task();`
as the infinite event trace it performs: clock measurement, serial
derivation, `DAP_Setup()`, `tusb_init()`, then `tud_task()` forever. -/
def dap_main : Nat → DapEvent
  | 0 => DapEvent.measureClock
  | 1 => DapEvent.deriveSerialId
  | 2 => DapEvent.dapSetup
  | 3 => DapEvent.tusbInit
  | _ => DapEvent.tudTask

/-! ## Buffer lemmas -/

lemma length_writeSeq (data : List Nat) (st : List Nat) (pos : Nat) :
    (writeSeq st pos data).length = st.length := by
  induction data generalizing st pos with
  | nil => rfl
  | cons b bs ih => rw [writeSeq, ih, List.length_set]

lemma writeSeq_getElem?_lt (data : List Nat) (st : List Nat) (pos j : Nat)
    (h : j < pos) : (writeSeq st pos data)[j]? = st[j]? := by
  induction data generalizing st pos with
  | nil => rfl
  | cons b bs ih =>
    rw [writeSeq, ih _ _ (Nat.lt_succ_of_lt h), List.getElem?_set_ne (Nat.ne_of_gt h)]

lemma writeSeq_getElem?_at (data : List Nat) (st : List Nat) (pos i : Nat)
    (hi : i < data.length) (hlen : pos + data.length ≤ st.length) :
    (writeSeq st pos data)[pos + i]? = data[i]? := by
  induction data generalizing st pos i with
  | nil => exact absurd hi (Nat.not_lt_zero i)
  | cons b bs ih =>
    cases i with
    | zero =>
      rw [Nat.add_zero, writeSeq,
        writeSeq_getElem?_lt bs _ _ _ (Nat.lt_succ_self pos),
        List.getElem?_set_eq_of_lt]
      · simp
      · simp only [List.length_cons] at hlen; omega
    | succ i =>
      have hgoal : pos + (i + 1) = (pos + 1) + i := by omega
      rw [hgoal, writeSeq, ih (st.set pos b) (pos + 1) i]
      · simp
      · simpa using hi
      · rw [List.length_set]; simp only [List.length_cons] at hlen; omega

lemma applyWrites_append (st : List Nat) (ws ws' : List (Nat × Nat)) :
    applyWrites st (ws ++ ws') = applyWrites (applyWrites st ws) ws' :=
  List.foldl_append _ _ _ _

lemma applyWrites_strWrites (data : List Nat) (st : List Nat) (pos : Nat) :
    applyWrites st (strWrites pos data) = writeSeq st pos data := by
  induction data generalizing st pos with
  | nil => rfl
  | cons b bs ih =>
    show applyWrites (st.set pos b) (strWrites (pos + 1) bs)
        = writeSeq (st.set pos b) (pos + 1) bs
    exact ih _ _

lemma strWrites_mem_fst (data : List Nat) (pos : Nat) (pv : Nat × Nat)
    (h : pv ∈ strWrites pos data) : pos ≤ pv.1 ∧ pv.1 < pos + data.length := by
  induction data generalizing pos with
  | nil => cases h
  | cons b bs ih =>
    rcases List.mem_cons.mp h with h | h
    · subst h; simp
    · have := ih (pos + 1) h
      simp only [List.length_cons]
      omega

/-! ## Claims -/

/-- C1: the spec claims the serial derived from hardware ID
[0x1A, 0x00, 0xFF, 0x02, 0x03, 0x04, 0x05, 0x06] is the 16-character string
"1A00FF0203040506".  The code uses `snprintf(p, 3, "%X", ...)` WITHOUT zero
padding, so every byte below 0x10 emits a single digit followed by an
embedded NUL terminator: the resulting C string is "1A0" (length 3), not the
claimed 16-character hex string. -/
theorem C1_serial_bug :
    serialCString (deriveSerial [0x1A, 0x00, 0xFF, 0x02, 0x03, 0x04, 0x05, 0x06])
      = strBytes "1A0" ∧
    serialCString (deriveSerial [0x1A, 0x00, 0xFF, 0x02, 0x03, 0x04, 0x05, 0x06])
      ≠ strBytes "1A00FF0203040506" := by
  constructor
  · decide
  · decide

/-- C2 counterexample: the claim says the set-report callback never issues a
zero-length transmission for any `bufsize`, including `bufsize = 0`.  With a
(representative) configured capacity of 64 and `bufsize = 0`, the transmitted
length `TU_MIN(64, 0)` is 0. -/
theorem C2_counterexample :
    (tud_hid_set_report_cb 64 (fun rx => rx) [] 0).2 = 0 := by decide

/-- C2 (amended): the set-report callback transmits exactly
`TU_MIN(bufcap, bufsize)` bytes; this length is nonzero whenever the
configured capacity and the received `bufsize` are both positive, but it is
zero when `bufsize = 0`. -/
theorem C2_transmit_length (bufcap : Nat) (process : List Nat → List Nat)
    (rx : List Nat) (bufsize : Nat) :
    (tud_hid_set_report_cb bufcap process rx bufsize).2 = TU_MIN bufcap bufsize ∧
    (0 < bufcap → 0 < bufsize →
      0 < (tud_hid_set_report_cb bufcap process rx bufsize).2) := by
  refine ⟨rfl, fun h1 h2 => ?_⟩
  show 0 < TU_MIN bufcap bufsize
  rw [TU_MIN]
  split <;> omega

/-- Witness for C2 (amended) at capacity 64, echo processor, bufsize 2. -/
theorem C2_transmit_length_witness :
    (tud_hid_set_report_cb 64 (fun rx => rx) [1, 2] 2).2 = TU_MIN 64 2 ∧
    0 < (tud_hid_set_report_cb 64 (fun rx => rx) [1, 2] 2).2 :=
  ⟨(C2_transmit_length 64 (fun rx => rx) [1, 2] 2).1,
   (C2_transmit_length 64 (fun rx => rx) [1, 2] 2).2 (by decide) (by decide)⟩

/-- C7: with an input buffer of exactly the configured capacity `N` and a
command processor that echoes its input into the output buffer unchanged,
the relay transmits exactly `N` bytes identical to the input. -/
theorem C7_echo_roundtrip (N : Nat) (rx : List Nat) (h : rx.length = N) :
    (tud_hid_set_report_cb N (fun x => x) rx N).1 = rx ∧
    (tud_hid_set_report_cb N (fun x => x) rx N).1.length = N := by
  have hmin : TU_MIN N N = N := if_neg (Nat.lt_irrefl N)
  have h1 : (tud_hid_set_report_cb N (fun x => x) rx N).1 = rx := by
    show rx.take (TU_MIN N N) = rx
    rw [hmin, ← h, List.take_length]
  exact ⟨h1, by rw [h1, h]⟩

/-- Witness for C7 at N = 4, input [1, 2, 3, 4]. -/
theorem C7_echo_roundtrip_witness :
    (tud_hid_set_report_cb 4 (fun x => x) [1, 2, 3, 4] 4).1 = [1, 2, 3, 4] ∧
    (tud_hid_set_report_cb 4 (fun x => x) [1, 2, 3, 4] 4).1.length = 4 :=
  C7_echo_roundtrip 4 [1, 2, 3, 4] (by decide)

/-- C3: for an ASCII string S of length L with 1 ≤ L ≤ 31 stored at a nonzero
in-range index, the string-descriptor callback yields a buffer whose first
16-bit unit is `(0x03 <<< 8) ||| (2*L + 2)` and whose following L units are
the zero-extended bytes of S in order. -/
theorem C3_string_descriptor (tbl : List (List Nat)) (st : List Nat)
    (index langid : Nat) (S : List Nat)
    (h0 : index ≠ 0) (hS : tbl[index]? = some S)
    (h1 : 1 ≤ S.length) (h31 : S.length ≤ 31) (hst : st.length = 32)
    (_hascii : ∀ b ∈ S, 0 < b ∧ b < 128) :
    ∃ buf, tud_descriptor_string_cb tbl st index langid = some buf ∧
      buf[0]? = some ((0x03 <<< 8) ||| (2 * S.length + 2)) ∧
      ∀ i, i < S.length → buf[1 + i]? = S[i]? := by
  have hmod : S.length % 256 = S.length := Nat.mod_eq_of_lt (by omega)
  have hif : ¬ 31 < S.length := by omega
  have hcb : tud_descriptor_string_cb tbl st index langid =
      some ((writeSeq st 1 S).set 0 ((0x03 <<< 8) ||| (2 * S.length + 2))) := by
    simp only [tud_descriptor_string_cb, descStrWrites, if_neg h0, hS, hmod,
      if_neg hif, List.take_length, Option.map_some', applyWrites_append,
      applyWrites_strWrites]
    rfl
  refine ⟨_, hcb, ?_, ?_⟩
  · exact List.getElem?_set_eq_of_lt _ (by rw [length_writeSeq, hst]; omega)
  · intro i hi
    rw [List.getElem?_set_ne (by omega : (0 : Nat) ≠ 1 + i)]
    exact writeSeq_getElem?_at S st 1 i hi (by omega)

/-- Witness for C3 at the real table (empty serial), index 1 ("CMSIS-DAP",
9 characters), language ID 0. -/
theorem C3_string_descriptor_witness :
    ∃ buf, tud_descriptor_string_cb (string_desc_arr []) (List.replicate 32 0) 1 0
        = some buf ∧
      buf[0]? = some ((0x03 <<< 8) ||| (2 * (strBytes "CMSIS-DAP").length + 2)) ∧
      ∀ i, i < (strBytes "CMSIS-DAP").length →
        buf[1 + i]? = (strBytes "CMSIS-DAP")[i]? :=
  C3_string_descriptor (string_desc_arr []) (List.replicate 32 0) 1 0
    (strBytes "CMSIS-DAP") (by decide) (by decide) (by decide) (by decide)
    (by decide) (by decide)

set_option maxRecDepth 8192 in
/-- C4 counterexample: the claim asserts every table string longer than 31
characters is truncated to exactly 31 code units with header `2*31 + 2`.
But `chr_count` is a `uint8_t`, so `strlen` is reduced modulo 256 BEFORE the
cap: a 256-character string yields `chr_count = 0`, a header announcing zero
characters, and no copied units — not 31. -/
theorem C4_counterexample :
    31 < (List.replicate 256 (65 : Nat)).length ∧
    tud_descriptor_string_cb [[0x09, 0x04], List.replicate 256 65]
        (List.replicate 32 0) 1 0
      = some (((0x03 <<< 8) ||| 2) :: List.replicate 31 0) ∧
    ((0x03 <<< 8) ||| 2) ≠ ((0x03 <<< 8) ||| (2 * 31 + 2)) := by
  refine ⟨by simp, ?_, by decide⟩
  decide

/-- C4 (amended): for a string S of length L with 31 < L ≤ 255 stored at a
nonzero in-range index, the callback silently truncates to exactly 31 code
units, the header reflects 31 characters, and no error is signalled (the
result is present).  For L ≥ 256 the `uint8_t` character count wraps modulo
256 before the cap, so the 31-unit truncation no longer holds. -/
theorem C4_truncation (tbl : List (List Nat)) (st : List Nat)
    (index langid : Nat) (S : List Nat)
    (h0 : index ≠ 0) (hS : tbl[index]? = some S)
    (h31 : 31 < S.length) (h255 : S.length ≤ 255) (hst : st.length = 32) :
    ∃ buf, tud_descriptor_string_cb tbl st index langid = some buf ∧
      buf[0]? = some ((0x03 <<< 8) ||| (2 * 31 + 2)) ∧
      ∀ i, i < 31 → buf[1 + i]? = S[i]? := by
  have hmod : S.length % 256 = S.length := Nat.mod_eq_of_lt (by omega)
  have htklen : (S.take 31).length = 31 := by
    rw [List.length_take]
    omega
  have hcb : tud_descriptor_string_cb tbl st index langid =
      some ((writeSeq st 1 (S.take 31)).set 0 ((0x03 <<< 8) ||| (2 * 31 + 2))) := by
    simp only [tud_descriptor_string_cb, descStrWrites, if_neg h0, hS, hmod,
      if_pos h31, Option.map_some', applyWrites_append, applyWrites_strWrites]
    rfl
  refine ⟨_, hcb, ?_, ?_⟩
  · exact List.getElem?_set_eq_of_lt _ (by rw [length_writeSeq, hst]; omega)
  · intro i hi
    rw [List.getElem?_set_ne (by omega : (0 : Nat) ≠ 1 + i),
      writeSeq_getElem?_at (S.take 31) st 1 i (by omega)
        (by rw [htklen, hst])]
    exact List.getElem?_take_of_lt hi

/-- Witness for C4 (amended) at a table whose index-1 string has 40
characters. -/
theorem C4_truncation_witness :
    ∃ buf, tud_descriptor_string_cb [[0x09, 0x04], List.replicate 40 66]
        (List.replicate 32 0) 1 0 = some buf ∧
      buf[0]? = some ((0x03 <<< 8) ||| (2 * 31 + 2)) ∧
      ∀ i, i < 31 → buf[1 + i]? = (List.replicate 40 (66 : Nat))[i]? :=
  C4_truncation [[0x09, 0x04], List.replicate 40 66] (List.replicate 32 0) 1 0
    (List.replicate 40 66) (by decide) (by decide) (by decide) (by decide)
    (by decide)

/-- C5: for index 0 and every language ID, the callback yields a buffer whose
single code unit (element 1) is the fixed language-ID pair 0x0409 and whose
header (element 0) is `(0x03 <<< 8) ||| 4`, i.e. a length field of 4
(chr_count = 1); the language argument plays no role. -/
theorem C5_index0 (serial : List Nat) (st : List Nat) (langid : Nat)
    (hst : st.length = 32) :
    ∃ buf, tud_descriptor_string_cb (string_desc_arr serial) st 0 langid
        = some buf ∧
      buf[1]? = some 0x0409 ∧
      buf[0]? = some ((0x03 <<< 8) ||| (2 * 1 + 2)) ∧
      ((0x03 <<< 8) ||| (2 * 1 + 2)) % 256 = 4 := by
  have hcb : tud_descriptor_string_cb (string_desc_arr serial) st 0 langid =
      some ((st.set 1 0x0409).set 0 ((0x03 <<< 8) ||| (2 * 1 + 2))) := rfl
  refine ⟨_, hcb, ?_, ?_, by decide⟩
  · rw [List.getElem?_set_ne (by omega : (0 : Nat) ≠ 1)]
    exact List.getElem?_set_eq_of_lt _ (by omega)
  · exact List.getElem?_set_eq_of_lt _ (by rw [List.length_set]; omega)

/-- Witness for C5 at an empty serial, zeroed scratch buffer, language ID
0xABCD. -/
theorem C5_index0_witness :
    ∃ buf, tud_descriptor_string_cb (string_desc_arr []) (List.replicate 32 0)
        0 0xABCD = some buf ∧
      buf[1]? = some 0x0409 ∧
      buf[0]? = some ((0x03 <<< 8) ||| (2 * 1 + 2)) ∧
      ((0x03 <<< 8) ||| (2 * 1 + 2)) % 256 = 4 :=
  C5_index0 [] (List.replicate 32 0) 0xABCD (by decide)

/-- C6: for every index at or beyond the 4-entry string table (up to the
uint8_t maximum) and every language ID, the callback returns `none`
(the NULL return), whatever the serial contents. -/
theorem C6_out_of_range (serial : List Nat) (st : List Nat)
    (index langid : Nat) (h4 : 4 ≤ index) (h256 : index < 256) :
    tud_descriptor_string_cb (string_desc_arr serial) st index langid = none := by
  have h0 : index ≠ 0 := by omega
  have hnone : (string_desc_arr serial)[index]? = none :=
    List.getElem?_eq_none (by simp [string_desc_arr]; omega)
  simp only [tud_descriptor_string_cb, descStrWrites, if_neg h0, hnone,
    Option.map_none']

/-- Witness for C6 at index 4 (the first out-of-range index). -/
theorem C6_out_of_range_witness :
    tud_descriptor_string_cb (string_desc_arr []) (List.replicate 32 0) 4 0
      = none :=
  C6_out_of_range [] (List.replicate 32 0) 4 0 (by decide) (by decide)

/-- C8: in the `dap_main` trace, the clock measurement, serial derivation and
command-processor setup occur at steps 0, 1 and 2 — in that order, strictly
before `tusb_init` at step 3; every later step is a `tud_task` poll, and the
poll loop never performs any of the earlier steps again (every non-`tudTask`
step lies before step 4). -/
theorem C8_init_order :
    dap_main 0 = DapEvent.measureClock ∧
    dap_main 1 = DapEvent.deriveSerialId ∧
    dap_main 2 = DapEvent.dapSetup ∧
    dap_main 3 = DapEvent.tusbInit ∧
    (∀ n, 4 ≤ n → dap_main n = DapEvent.tudTask) ∧
    (∀ n, dap_main n ≠ DapEvent.tudTask → n < 4) := by
  refine ⟨rfl, rfl, rfl, rfl, ?_, ?_⟩
  · intro n hn
    match n, hn with
    | (m + 4), _ => rfl
  · intro n hn
    by_contra hlt
    exact hn (by
      match n, (by omega : 4 ≤ n) with
      | (m + 4), _ => rfl)

/-- Witness for C8: step 10 of the trace is a `tud_task` poll. -/
theorem C8_init_order_witness : dap_main 10 = DapEvent.tudTask :=
  C8_init_order.2.2.2.2.1 10 (by decide)

/-- C9: the string-descriptor callback ignores its language-ID argument
entirely: for every table, scratch-buffer state and index, any two language
IDs produce identical results. -/
theorem C9_langid_irrelevant (tbl : List (List Nat)) (st : List Nat)
    (index l1 l2 : Nat) :
    tud_descriptor_string_cb tbl st index l1
      = tud_descriptor_string_cb tbl st index l2 := rfl

/-- C10: every store the string-descriptor callback performs on the
32-element scratch buffer `_desc_str` targets an element index below 32
(elements 1..chr_count with chr_count ≤ 31, plus the header at element 0),
for every table, index and language ID. -/
theorem C10_writes_in_bounds (tbl : List (List Nat)) (index langid : Nat)
    (ws : List (Nat × Nat)) (h : descStrWrites tbl index langid = some ws) :
    ∀ pv ∈ ws, pv.1 < 32 := by
  intro pv hpv
  rw [descStrWrites] at h
  by_cases h0 : index = 0
  · rw [if_pos h0] at h
    cases h
    rcases List.mem_cons.mp hpv with h | h
    · subst h; norm_num
    · rcases List.mem_cons.mp h with h | h
      · subst h; norm_num
      · cases h
  · rw [if_neg h0] at h
    rcases hstr : tbl[index]? with _ | str
    · rw [hstr] at h
      cases h
    · rw [hstr, Option.map_some'] at h
      cases h
      rcases List.mem_append.mp hpv with h | h
      · have hb := strWrites_mem_fst _ _ _ h
        have hcap : (if 31 < str.length % 256 then 31 else str.length % 256) ≤ 31 := by
          split <;> omega
        have htk : (str.take
            (if 31 < str.length % 256 then 31 else str.length % 256)).length ≤ 31 := by
          rw [List.length_take]
          rcases Nat.min_le_left
            (if 31 < str.length % 256 then 31 else str.length % 256) str.length
            with hmin
          omega
        omega
      · rcases List.mem_cons.mp h with h | h
        · subst h; norm_num
        · cases h

/-- Witness for C10 at the real table, index 1 ("CMSIS-DAP"), language ID 0:
the last store of the copy loop, element 9 receiving the final character
(ASCII 80, the P), targets an index below 32. -/
theorem C10_writes_in_bounds_witness : ((9, 80) : Nat × Nat).1 < 32 :=
  C10_writes_in_bounds (string_desc_arr []) 1 0
    (strWrites 1 (strBytes "CMSIS-DAP") ++
      [((0 : Nat), (TUSB_DESC_STRING <<< 8) ||| (2 * 9 + 2))]) (by decide)
    (9, 80) (by decide)

end EzPico
